import Mathlib

/-!
Verification development for the finanzguru-adb-api repository
(`src/adb.py`, `src/finanzguru.py`).

The Python code is shallowly embedded: Python floats are modelled as
exact rationals `ℚ` (with `round` modelled as round-half-to-even),
Python string primitives (`in`, slicing, `split`, `replace`, `lower`,
`int`, `float`) are modelled as executable functions on `List Char`
via `String.data`, Python exceptions become explicit error
constructors, and every adb device action (`input tap`, `input text`,
`input keyevent`, `input swipe`) becomes an explicit `Event` in a
trace so that claims about which device inputs are issued can be
stated and decided.
-/

namespace Finanzguru

/-! ## Models of the Python primitives used by the source -/

/-- Model of Python list/str prefix test: `pat` is a prefix of the
second argument (character-wise). -/
def listPrefixB : List Char → List Char → Bool
  | [], _ => true
  | _ :: _, [] => false
  | a :: as, b :: bs => a == b && listPrefixB as bs

/-- Model of Python's substring operator `pat in hay`: some suffix of
`hay` has `pat` as a prefix. -/
def listSubB (pat : List Char) : List Char → Bool
  | [] => listPrefixB pat []
  | c :: rest => listPrefixB pat (c :: rest) || listSubB pat rest

/-- Python `pat in hay` on strings. -/
def strIn (pat hay : String) : Bool := listSubB pat.data hay.data

/-- Python `str.lower()` (ASCII case folding suffices for the labels
handled by this program). -/
def pyLower (s : String) : String := ⟨s.data.map Char.toLower⟩

/-- Python slice `s[:-2]`: drop the trailing two characters (empty
result when the string has at most two characters). -/
def pyDropLast2 (s : String) : String := ⟨s.data.take (s.data.length - 2)⟩

/-- Python `s.replace(pat, rep)` for a one-character pattern, the only
shape of `replace` the source uses. -/
def pyReplace (s : String) (pat : Char) (rep : String) : String :=
  ⟨(s.data.map (fun c => if c == pat then rep.data else [c])).flatten⟩

/-- Fuel-driven worker for `pySplitOn`; the fuel is the length of the
string plus one, enough because every step consumes at least one
character when the separator is non-empty. -/
def splitOnFuel (sep : List Char) : ℕ → List Char → List Char → List (List Char)
  | 0, s, acc => [acc.reverse ++ s]
  | fuel + 1, s, acc =>
    match s with
    | [] => [acc.reverse]
    | c :: rest =>
      if listPrefixB sep s then
        acc.reverse :: splitOnFuel sep fuel (s.drop sep.length) []
      else
        splitOnFuel sep fuel rest (c :: acc)

/-- Python `s.split(sep)` for a non-empty separator: non-overlapping,
left-to-right. -/
def pySplitOn (sep s : List Char) : List (List Char) :=
  if sep.isEmpty then [s] else splitOnFuel sep (s.length + 1) s []

/-- Value of a non-empty all-digit character list, `none` otherwise. -/
def digitsToNat : List Char → Option ℕ
  | [] => none
  | l => go l 0
where
  go : List Char → ℕ → Option ℕ
    | [], acc => some acc
    | c :: rest, acc =>
      if c.isDigit then go rest (acc * 10 + (c.toNat - '0'.toNat)) else none

/-- Python `int(s)`: optional sign followed by at least one digit
(whitespace tolerance is not needed for the inputs this program
produces). -/
def pyInt? (s : List Char) : Option ℤ :=
  match s with
  | '-' :: rest => (digitsToNat rest).map (fun n => -(n : ℤ))
  | '+' :: rest => (digitsToNat rest).map (fun n => (n : ℤ))
  | _ => (digitsToNat s).map (fun n => (n : ℤ))

/-- Sign, integer digits, fraction digits and fraction length of a
fixed-point decimal literal, the shape `float()` receives in this
program after the locale transform. -/
def pyFloatParts (s : List Char) : Option (Bool × ℕ × ℕ × ℕ) :=
  let signBody : Bool × List Char :=
    match s with
    | '-' :: rest => (true, rest)
    | '+' :: rest => (false, rest)
    | _ => (false, s)
  match pySplitOn ['.'] signBody.2 with
  | [ip] => (digitsToNat ip).map (fun n => (signBody.1, n, 0, 0))
  | [ip, fp] =>
    if ip.isEmpty && fp.isEmpty then none
    else if (ip.isEmpty || (digitsToNat ip).isSome)
        && (fp.isEmpty || (digitsToNat fp).isSome) then
      some (signBody.1, (digitsToNat ip).getD 0, (digitsToNat fp).getD 0, fp.length)
    else none
  | _ => none

/-- Python `float(s)` restricted to fixed-point decimal literals,
returning an exact rational. -/
def pyFloat? (s : String) : Option ℚ :=
  (pyFloatParts s.data).map
    (fun p => (if p.1 then (-1 : ℚ) else 1) * ((p.2.1 : ℚ) + (p.2.2.1 : ℚ) / (10 : ℚ) ^ p.2.2.2))

/-- Python `round(q)` (no digits argument): round half to even,
returning an integer. -/
def pyRound (q : ℚ) : ℤ :=
  let f := ⌊q⌋
  let r := q - (f : ℚ)
  if r < 1 / 2 then f
  else if 1 / 2 < r then f + 1
  else if f % 2 = 0 then f else f + 1

/-- Python `round(q, 2)`: round to two fraction digits, half to even,
as in `finanzguru.py` line 189. -/
def round2 (q : ℚ) : ℚ := (pyRound (q * 100) : ℚ) / 100

/-! ## Device events -/

/-- One adb device input event issued through `device.shell`.
`scrollToTopOverview` stands for the nested call to
`FinanzGuruClient.scroll_to_top_overview` (a navigation step that
issues its own tap), kept abstract because no claim depends on its
internals.  Settle delays (`time.sleep`) are not device inputs and are
not traced. -/
inductive Event where
  | tap (x y : ℤ)
  | text (s : String)
  | key (code : String)
  | swipe (x1 y1 x2 y2 : ℤ) (dur : Option ℤ)
  | scrollToTopOverview
  deriving DecidableEq, Repr

/-- Events issued by `Adb.input_text` (adb.py lines 346-363): text with
spaces is sent word by word with an explicit `KEYCODE_SPACE` key event
after every word that differs from the last word of the split. -/
def inputTextEvents (t : String) : List Event :=
  if t.data.contains ' ' then
    let ws := (pySplitOn [' '] t.data).map (fun w => (⟨w⟩ : String))
    let lastWord := ws.getLast?.getD ""
    (ws.map (fun w =>
      if w == lastWord then [Event.text w]
      else [Event.text w, Event.key "KEYCODE_SPACE"])).flatten
  else [Event.text t]

/-! ## FinanzGuruClient.add_transaction (finanzguru.py lines 96-151) -/

/-- The sign-dependent income/expense branch of `add_transaction`
(finanzguru.py lines 109-114): for a negative amount the branch body is
`pass` (its tap is commented out), otherwise the tap at (80, 260) is
issued. -/
def branchSelectionTaps (amount : ℚ) : List Event :=
  if amount < 0 then [] else [Event.tap 80 260]

/-- Ordered device-event trace of `add_transaction` once past the zero
check (finanzguru.py lines 106-151). -/
def addTransactionEvents (amount : ℚ) (name category : String) : List Event :=
  [Event.tap 610 1400]
    ++ branchSelectionTaps amount
    ++ [Event.tap 350 260,
        Event.text (toString (pyRound (|amount| * 100))),
        Event.tap 350 425]
    ++ inputTextEvents name
    ++ [Event.tap 350 630, Event.tap 370 100]
    ++ inputTextEvents category
    ++ [Event.tap 300 240, Event.tap 350 1460]

/-- `add_transaction` (finanzguru.py lines 96-151): the first component
is `true` when the Python function returns the failure sentinel `False`
(amount exactly zero), the second is the trace of issued device
events. -/
def addTransaction (amount : ℚ) (name category : String) : Bool × List Event :=
  if amount = 0 then (true, [])
  else (false, addTransactionEvents amount name category)

/-! ## FinanzGuruClient.update_account_balance (finanzguru.py lines 186-205) -/

/-- The reconciliation decision of `update_account_balance`
(finanzguru.py lines 189-202) given the observed app balance, the
target balance and the threshold: `none` when the rounded difference is
within the threshold (early return without clicking), otherwise the
argument triple passed to `add_transaction`. -/
def updateAccountBalance (observed target threshold : ℚ) : Option (ℚ × String × String) :=
  let difference := round2 (target - observed)
  if |difference| ≤ threshold then none
  else some (difference,
    if 0 < difference then "Gain" else "Loss",
    if difference < 0 then "Trading Verlust" else "Trading Gewinn")

/-- The transaction actually injected by a full
`update_account_balance` run: `add_transaction` returns immediately
when its amount is zero, so a zero difference injects nothing even when
the threshold check is passed. -/
def injectedTransaction (observed target threshold : ℚ) : Option (ℚ × String × String) :=
  match updateAccountBalance observed target threshold with
  | none => none
  | some (d, n, c) => if d = 0 then none else some (d, n, c)

/-! ## FinanzGuruClient.request_bank_update (finanzguru.py lines 207-232) -/

/-- The cooldown constant `60*60*30` seconds from finanzguru.py line
214. -/
def bankUpdateCooldown : ℚ := 60 * 60 * 30

/-- `request_bank_update` (finanzguru.py lines 207-232) as a function
of the stored `last_bank_update` timestamp and the current time:
returns the grant decision, the new `last_bank_update`, and the device
events performed by this call itself.  A granted non-blocking call
spawns a thread running `request_bank_update(True)`; the spawned call
is modelled as a separate application of this same function at the
time the thread runs. -/
def requestBankUpdate (lastBankUpdate now : ℚ) (block : Bool) : Bool × ℚ × List Event :=
  if now - lastBankUpdate < bankUpdateCooldown then (false, lastBankUpdate, [])
  else if block then
    (true, now, [Event.scrollToTopOverview, Event.swipe 500 400 500 1400 (some 500)])
  else (true, now, [])

/-! ## Element model (adb.py lines 17-24 and 103-182) -/

/-- `BasicElement` (adb.py lines 17-24).  The `element` field models the
back-reference to the raw `ET.Element` node: Python compares
`ET.Element` values by object identity inside the generated dataclass
equality, so the raw node is modelled by its identity (a natural
number), `none` standing for the `None` stored by OCR elements. -/
structure BasicElement where
  text : String
  x1 : ℤ
  y1 : ℤ
  x2 : ℤ
  y2 : ℤ
  element : Option ℕ
  deriving DecidableEq, Repr

/-- One raw node of the UI-Automator dump, listed in document order:
its object identity, its `text` attribute, its `content-desc`
attribute (each `none` when the attribute is absent) and its `bounds`
attribute. -/
structure RawNode where
  id : ℕ
  text : Option String
  contentDesc : Option String
  bounds : String
  deriving DecidableEq, Repr

/-- Bounds parsing of `get_list_of_elements` (adb.py lines 124-131):
split on `][`, strip the outer brackets, split each half on `,` and
parse the four integers.  Any shape that would raise `IndexError` or
`ValueError` in Python yields `none`. -/
def parseBounds (bounds : String) : Option (ℤ × ℤ × ℤ × ℤ) := do
  let parts := pySplitOn "][".data bounds.data
  let p0 ← parts.get? 0
  let p1 ← parts.get? 1
  let b1 := pySplitOn [','] (p0.drop 1)
  let x1 ← pyInt? (← b1.get? 0)
  let y1 ← pyInt? (← b1.get? 1)
  let b2 := pySplitOn [','] (p1.take (p1.length - 1))
  let x2 ← pyInt? (← b2.get? 0)
  let y2 ← pyInt? (← b2.get? 1)
  return (x1, y1, x2, y2)

/-- One step of the text-element collection loops of
`get_list_of_elements` (adb.py lines 119-135 and 139-155): skip an
empty label, parse the bounds, build the element and append it unless
an equal element (text, bounds and raw-node reference) is already
present. -/
def addTextEl (acc : List BasicElement) (node : RawNode) (label : String) :
    Option (List BasicElement) :=
  if label = "" then some acc
  else
    match parseBounds node.bounds with
    | none => none
    | some (x1, y1, x2, y2) =>
      let e : BasicElement := ⟨label, x1, y1, x2, y2, some node.id⟩
      some (if e ∈ acc then acc else acc ++ [e])

/-- First pass of `get_list_of_elements`: nodes exposing a `text`
attribute (adb.py lines 116-135). -/
def textPass (acc : List BasicElement) (node : RawNode) : Option (List BasicElement) :=
  match node.text with
  | none => some acc
  | some t => addTextEl acc node t

/-- Second pass of `get_list_of_elements`: nodes exposing a
`content-desc` attribute (adb.py lines 138-155). -/
def descPass (acc : List BasicElement) (node : RawNode) : Option (List BasicElement) :=
  match node.contentDesc with
  | none => some acc
  | some t => addTextEl acc node t

/-- The `text_els` sequence produced by `get_list_of_elements`
(adb.py lines 116-155) from the raw nodes in document order; `none`
models a Python exception while parsing a `bounds` attribute. -/
def getListOfElements (nodes : List RawNode) : Option (List BasicElement) := do
  let afterText ← nodes.foldlM textPass []
  nodes.foldlM descPass afterText

/-! ## Element locator (adb.py lines 276-317) -/

/-- Tree branch of `get_elements_by_text` (adb.py lines 287-288):
substring filter `text in e.text` over the snapshot's text elements. -/
def getElementsByText (elements : List BasicElement) (text : String) : List BasicElement :=
  elements.filter (fun e => strIn text e.text)

/-- One loop iteration of `find_element_by_scroll` (adb.py lines
298-308) on a fresh snapshot: in screencap/OCR mode the first
case-insensitive substring match is returned; in tree mode the
candidates are the substring matches and the first of them whose label
is exactly the target is returned. -/
def findScrollStep (snap : List BasicElement) (text : String) (fromScreencap : Bool) :
    Option BasicElement :=
  if fromScreencap then
    snap.find? (fun e => strIn (pyLower text) (pyLower e.text))
  else
    let el := getElementsByText snap text
    if el.isEmpty then none else el.find? (fun e => e.text == text)

/-- The predicate deciding whether an element in a snapshot would make
one iteration of `find_element_by_scroll` return. -/
def scrollMatch (text : String) (fromScreencap : Bool) (e : BasicElement) : Bool :=
  if fromScreencap then strIn (pyLower text) (pyLower e.text) else e.text == text

/-- The swipe gesture issued by a failed `find_element_by_scroll`
iteration (adb.py lines 311-314). -/
def scrollSwipe (down : Bool) : Event :=
  if down then Event.swipe 500 1000 500 500 none else Event.swipe 500 500 500 1000 none

/-- The retry loop of `find_element_by_scroll` (adb.py lines 297-317):
`snaps i` is the fresh snapshot taken by iteration `i`.  Returns the
found element (or `none` after exhausting the tries), the number of
snapshots taken, and the scroll gestures issued. -/
def findScrollAux (snaps : ℕ → List BasicElement) (text : String) (down fromScreencap : Bool) :
    ℕ → ℕ → Option BasicElement × ℕ × List Event
  | _, 0 => (none, 0, [])
  | i, k + 1 =>
    match findScrollStep (snaps i) text fromScreencap with
    | some e => (some e, 1, [])
    | none =>
      let r := findScrollAux snaps text down fromScreencap (i + 1) k
      (r.1, r.2.1 + 1, scrollSwipe down :: r.2.2)

/-- `find_element_by_scroll` (adb.py lines 290-317). -/
def findElementByScroll (snaps : ℕ → List BasicElement) (text : String)
    (down fromScreencap : Bool) (maxTries : ℕ) : Option BasicElement × ℕ × List Event :=
  findScrollAux snaps text down fromScreencap 0 maxTries

/-! ## FinanzGuruClient.open_widget_by_name (finanzguru.py lines 77-93) -/

/-- The part of `open_widget_by_name` after `scroll_to_top_overview`
(finanzguru.py lines 82-93), with Python exception semantics made
explicit: when `find_element_by_scroll` exhausts its tries it returns
the sentinel `False`, and line 83 evaluates `element.element` on that
`bool`, raising `AttributeError` before the `widget == False` check on
line 85 is reached.  On success the function clicks and falls off the
end, returning `None` (modelled as `Except.ok none`). -/
def openWidgetByName (snaps : ℕ → List BasicElement) (name : String) :
    Except String (Option Bool) :=
  match (findElementByScroll snaps name true false 5).1 with
  | none => Except.error "AttributeError"
  | some _ => Except.ok none

/-! ## FinanzGuruClient.get_account_current_app_balance (finanzguru.py lines 154-183) -/

/-- The index-search loop of `get_account_current_app_balance`
(finanzguru.py lines 161-165): index and element of the first element
whose text equals the account name. -/
def findIdxElem (accountName : String) : ℕ → List BasicElement → Option (ℕ × BasicElement)
  | _, [] => none
  | i, e :: rest =>
    if e.text = accountName then some (i, e) else findIdxElem accountName (i + 1) rest

/-- The text transform of `get_account_current_app_balance`
(finanzguru.py lines 173-177): drop the trailing two characters,
remove every `.`, replace `,` with `.`. -/
def balanceText (t : String) : String :=
  pyReplace (pyReplace (pyDropLast2 t) '.' "") ',' "."

/-- Outcome of `get_account_current_app_balance`: `notFound` models the
`return False` at line 168, `indexError` the `IndexError` raised by
`elements[index + 1]` at line 170, `valueError` the `ValueError` raised
by `float(text)` at line 179. -/
inductive BalanceResult where
  | notFound
  | indexError
  | valueError
  | ok (amount : ℚ) (el : BasicElement)
  deriving DecidableEq, Repr

/-- `get_account_current_app_balance` (finanzguru.py lines 159-183)
given the normalized text-element sequence of the snapshot taken at
line 159 (the visibility-priming `find_element_by_scroll` call at line
157 discards its result and only affects which snapshot is current). -/
def getAccountCurrentAppBalance (elements : List BasicElement) (accountName : String) :
    BalanceResult :=
  match findIdxElem accountName 0 elements with
  | none => BalanceResult.notFound
  | some (index, el) =>
    match elements.get? (index + 1) with
    | none => BalanceResult.indexError
    | some nextElement =>
      match pyFloat? (balanceText nextElement.text) with
      | none => BalanceResult.valueError
      | some amount => BalanceResult.ok amount el

/-! ## Concrete data used by witnesses and counterexamples -/

/-- Snapshot elements for the balance-extraction scenario with the
conventional label suffix of a space and the euro sign. -/
def mainAccountEls : List BasicElement :=
  [⟨"Main Account", 0, 0, 400, 50, some 0⟩, ⟨"1.234,56 €", 0, 50, 400, 100, some 1⟩]

/-- Snapshot elements for the balance-extraction scenario exactly as
written in the specification, with the bare `€` suffix. -/
def mainAccountElsBare : List BasicElement :=
  [⟨"Main Account", 0, 0, 400, 50, some 0⟩, ⟨"1.234,56€", 0, 50, 400, 100, some 1⟩]

/-- Two distinct raw nodes carrying an identical label and identical
bounds. -/
def dupLabelNodes : List RawNode :=
  [⟨0, some "A", none, "[0,0][10,10]"⟩, ⟨1, some "A", none, "[0,0][10,10]"⟩]

/-- One raw node whose `text` and `content-desc` attributes carry the
same label, plus one node with an empty label. -/
def bothAttrNodes : List RawNode :=
  [⟨0, some "B", some "B", "[1,2][3,4]"⟩, ⟨1, some "", none, "[0,0][1,1]"⟩]

/-- A snapshot stream whose every snapshot contains one element
labelled `Account`. -/
def accountSnaps : ℕ → List BasicElement := fun _ => [⟨"Account", 0, 0, 100, 20, none⟩]

/-- A snapshot stream whose every snapshot contains one element
labelled `A`. -/
def aSnaps : ℕ → List BasicElement := fun _ => [⟨"A", 0, 0, 10, 10, some 0⟩]

/-- A snapshot stream with no elements at all. -/
def emptySnaps : ℕ → List BasicElement := fun _ => []

/-! ## Helper lemmas -/

theorem listPrefixB_refl (l : List Char) : listPrefixB l l = true := by
  induction l with
  | nil => rfl
  | cons c rest ih => simp [listPrefixB, ih]

theorem strIn_self (s : String) : strIn s s = true := by
  unfold strIn
  cases h : s.data with
  | nil => simp [listSubB, listPrefixB]
  | cons c rest => simp [listSubB, h ▸ listPrefixB_refl s.data]

theorem findScrollStep_some_match (snap : List BasicElement) (text : String) (m : Bool)
    (e : BasicElement) (h : findScrollStep snap text m = some e) :
    scrollMatch text m e = true := by
  unfold findScrollStep at h
  unfold scrollMatch
  cases m with
  | true =>
    simp only [if_true] at h ⊢
    have h2 := List.find?_some h
    simpa using h2
  | false =>
    simp only [Bool.false_eq_true, if_false] at h ⊢
    split at h
    · exact absurd h (by simp)
    · have h2 := List.find?_some h
      simpa using h2

theorem findScrollStep_of_match (snap : List BasicElement) (text : String) (m : Bool)
    (e : BasicElement) (he : e ∈ snap) (hm : scrollMatch text m e = true) :
    findScrollStep snap text m ≠ none := by
  intro hnone
  unfold findScrollStep at hnone
  unfold scrollMatch at hm
  cases m with
  | true =>
    simp only [if_true] at hnone hm
    exact absurd hm (by simpa using List.find?_eq_none.mp hnone e he)
  | false =>
    simp only [Bool.false_eq_true, if_false] at hnone hm
    have htext : e.text = text := by simpa using hm
    have hmem : e ∈ getElementsByText snap text := by
      refine List.mem_filter.mpr ⟨he, ?_⟩
      rw [htext]
      exact strIn_self text
    split at hnone
    · next hemp =>
      rw [List.isEmpty_iff] at hemp
      rw [hemp] at hmem
      exact absurd hmem (List.not_mem_nil e)
    · exact absurd hm (by simpa using List.find?_eq_none.mp hnone e hmem)

theorem findScrollAux_some (snaps : ℕ → List BasicElement) (text : String) (d m : Bool) :
    ∀ (k i : ℕ) (e : BasicElement) (s : ℕ) (sc : List Event),
      findScrollAux snaps text d m i k = (some e, s, sc) →
      ∃ j, findScrollStep (snaps j) text m = some e := by
  intro k
  induction k with
  | zero => intro i e s sc h; simp [findScrollAux] at h
  | succ n ih =>
    intro i e s sc h
    rw [findScrollAux] at h
    cases hs : findScrollStep (snaps i) text m with
    | some e' =>
      rw [hs] at h
      simp only [Prod.mk.injEq, Option.some.injEq] at h
      exact ⟨i, by rw [hs, h.1]⟩
    | none =>
      rw [hs] at h
      rcases hrec : findScrollAux snaps text d m (i + 1) n with ⟨r1, s1, sc1⟩
      rw [hrec] at h
      simp only [Prod.mk.injEq] at h
      exact ih (i + 1) e s1 sc1 (by rw [hrec, h.1])

theorem findScrollAux_snapshots_le (snaps : ℕ → List BasicElement) (text : String)
    (d m : Bool) : ∀ (k i : ℕ), (findScrollAux snaps text d m i k).2.1 ≤ k := by
  intro k
  induction k with
  | zero => intro i; simp [findScrollAux]
  | succ n ih =>
    intro i
    rw [findScrollAux]
    cases hs : findScrollStep (snaps i) text m with
    | some e => simp
    | none =>
      simp only
      have := ih (i + 1)
      omega

theorem tap_notMem_inputTextEvents (x y : ℤ) (s : String) :
    Event.tap x y ∉ inputTextEvents s := by
  unfold inputTextEvents
  split
  · intro hmem
    simp only [List.mem_flatten, List.mem_map] at hmem
    obtain ⟨l, ⟨w, _, hw⟩, hmem2⟩ := hmem
    rw [← hw] at hmem2
    split at hmem2 <;> simp at hmem2
  · intro hmem
    simp at hmem

/-! ## Claim theorems -/

/-- C5 (amended): when scroll-search returns an element in UI-tree mode
its label is exactly the target text, while in screenshot/OCR mode its
label need only contain the target case-insensitively; the exact label
check at selection time exists only in the tree branch. -/
theorem findElementByScroll_returnedLabel (snaps : ℕ → List BasicElement) (text : String)
    (down : Bool) (maxTries : ℕ) (e : BasicElement) (s : ℕ) (sc : List Event) :
    (findElementByScroll snaps text down false maxTries = (some e, s, sc) → e.text = text) ∧
    (findElementByScroll snaps text down true maxTries = (some e, s, sc) →
      strIn (pyLower text) (pyLower e.text) = true) := by
  constructor <;> intro h
  · obtain ⟨j, hj⟩ := findScrollAux_some snaps text down false maxTries 0 e s sc h
    have hm := findScrollStep_some_match (snaps j) text false e hj
    simpa [scrollMatch] using hm
  · obtain ⟨j, hj⟩ := findScrollAux_some snaps text down true maxTries 0 e s sc h
    have hm := findScrollStep_some_match (snaps j) text true e hj
    simpa [scrollMatch] using hm

/-- Witness for C5 at a concrete tree-mode run: the element returned
for target `A` carries exactly the label `A`. -/
theorem findElementByScroll_returnedLabel_witness :
    (⟨"A", 0, 0, 10, 10, some 0⟩ : BasicElement).text = "A" :=
  (findElementByScroll_returnedLabel aSnaps "A" true 5
    ⟨"A", 0, 0, 10, 10, some 0⟩ 1 []).1 (by decide)

/-- C5 counterexample: in screenshot/OCR mode, scroll-search for the
target `Acc` returns the element labelled `Account`, whose label is not
exactly equal to the target, refuting the claim that an exact label
check is applied at selection time in every snapshot mode. -/
theorem findElementByScroll_ocr_cex :
    findElementByScroll accountSnaps "Acc" true true 5 =
      (some ⟨"Account", 0, 0, 100, 20, none⟩, 1, []) ∧
    ("Account" : String) ≠ "Acc" := by
  constructor
  · decide
  · decide

/-- C6 (amended): `find_element_by_scroll` takes at most `maxTries`
snapshots whether or not the target exists, and — provided at least one
attempt is allowed (`1 ≤ maxTries`) — when a matching element is
present in the first snapshot it returns after exactly one snapshot
with zero scroll gestures. -/
theorem findElementByScroll_snapshotBound (snaps : ℕ → List BasicElement) (text : String)
    (down fromScreencap : Bool) (maxTries : ℕ) :
    (findElementByScroll snaps text down fromScreencap maxTries).2.1 ≤ maxTries ∧
    (1 ≤ maxTries → (∃ e ∈ snaps 0, scrollMatch text fromScreencap e = true) →
      (findElementByScroll snaps text down fromScreencap maxTries).2 = (1, [])) := by
  constructor
  · exact findScrollAux_snapshots_le snaps text down fromScreencap maxTries 0
  · rintro hmt ⟨e, he, hm⟩
    obtain ⟨n, rfl⟩ : ∃ n, maxTries = n + 1 := ⟨maxTries - 1, by omega⟩
    unfold findElementByScroll
    rw [findScrollAux]
    cases hs : findScrollStep (snaps 0) text fromScreencap with
    | none => exact absurd hs (findScrollStep_of_match (snaps 0) text fromScreencap e he hm)
    | some e' => simp

/-- Witness for C6: with one allowed attempt and the target present in
the first snapshot, exactly one snapshot and no scroll gesture. -/
theorem findElementByScroll_snapshotBound_witness :
    (findElementByScroll aSnaps "A" true false 1).2 = (1, []) :=
  (findElementByScroll_snapshotBound aSnaps "A" true false 1).2 (le_refl 1)
    ⟨⟨"A", 0, 0, 10, 10, some 0⟩, by decide, by decide⟩

/-- C6 counterexample: with `max_attempts = 0` the loop body never
runs, so even though a matching element is present in the first
available snapshot the call returns after zero snapshots, not exactly
one. -/
theorem findElementByScroll_zeroTries_cex :
    findElementByScroll aSnaps "A" true false 0 = (none, 0, []) ∧
    (∃ e ∈ aSnaps 0, scrollMatch "A" false e = true) := by
  exact ⟨rfl, ⟨"A", 0, 0, 10, 10, some 0⟩, by decide, by decide⟩

/-- C7: when scroll-search exhausts its attempts without a match,
`open_widget_by_name` does not return the `False` sentinel — line 83
evaluates `element.element` on the `bool` returned by
`find_element_by_scroll`, raising `AttributeError` before the
`widget == False` check is reached, so the caller sees an exception
instead of a failure value. -/
theorem openWidgetByName_raises :
    openWidgetByName emptySnaps "Budget" = Except.error "AttributeError" := rfl

/-- C8 (amended): the income/expense branch selection of
`add_transaction` is sign-dependent, but in the opposite direction of
the claim: for a negative amount (the loss branch) no branch-selection
tap is issued — its tap coordinates are the ones commented out — while
for every positive amount the tap at (80, 260) is issued. -/
theorem addTransaction_branchTap (amount : ℚ) (name category : String) :
    (amount < 0 → Event.tap 80 260 ∉ addTransactionEvents amount name category) ∧
    (0 < amount → Event.tap 80 260 ∈ addTransactionEvents amount name category) := by
  constructor
  · intro hneg hmem
    have hn := tap_notMem_inputTextEvents 80 260 name
    have hc := tap_notMem_inputTextEvents 80 260 category
    simp [addTransactionEvents, branchSelectionTaps, if_pos hneg, hn, hc] at hmem
  · intro hpos
    have hnn : ¬ amount < 0 := not_lt.mpr hpos.le
    simp [addTransactionEvents, branchSelectionTaps, if_neg hnn]

/-- Witness for C8 at concrete amounts: no branch tap at −3, the
(80, 260) tap at 3. -/
theorem addTransaction_branchTap_witness :
    Event.tap 80 260 ∉ addTransactionEvents (-3) "Loss" "Trading Verlust" ∧
    Event.tap 80 260 ∈ addTransactionEvents 3 "Gain" "Trading Gewinn" :=
  ⟨(addTransaction_branchTap (-3) "Loss" "Trading Verlust").1 (by norm_num),
   (addTransaction_branchTap 3 "Gain" "Trading Gewinn").2 (by norm_num)⟩

/-- C8 counterexample: at the negative amount −5 the claimed
expense-selection tap is absent from the trace, and at the positive
amount 5 a branch-selection tap is issued, refuting both directions of
the claim as stated. -/
theorem addTransaction_branchTap_cex :
    Event.tap 80 260 ∉ addTransactionEvents (-5) "Loss" "Trading Verlust" ∧
    Event.tap 80 260 ∈ addTransactionEvents 5 "Gain" "Trading Gewinn" := by
  constructor
  · norm_num [addTransactionEvents, branchSelectionTaps, inputTextEvents]
    decide
  · norm_num [addTransactionEvents, branchSelectionTaps]

/-- C10: for a signed amount of exactly zero, `add_transaction` returns
the failure sentinel `False` immediately and issues no device input
events at all. -/
theorem addTransaction_zeroAmount (name category : String) :
    addTransaction 0 name category = (true, []) := by
  simp [addTransaction]

/-- C1 (amended): for every observed balance, target balance and
nonnegative threshold, with `delta` the difference target − observed
rounded to two fraction digits, no transaction is injected iff
`|delta| ≤ threshold`; when `|delta| > threshold` a gain transaction
(name `Gain`, category `Trading Gewinn`) is injected iff `delta > 0`
and a loss transaction (name `Loss`, category `Trading Verlust`) is
injected iff `delta < 0`. -/
theorem updateAccountBalance_decision (observed target threshold : ℚ)
    (hth : 0 ≤ threshold) :
    (injectedTransaction observed target threshold = none ↔
      |round2 (target - observed)| ≤ threshold) ∧
    (¬ |round2 (target - observed)| ≤ threshold →
      ((injectedTransaction observed target threshold =
          some (round2 (target - observed), "Gain", "Trading Gewinn")) ↔
        0 < round2 (target - observed)) ∧
      ((injectedTransaction observed target threshold =
          some (round2 (target - observed), "Loss", "Trading Verlust")) ↔
        round2 (target - observed) < 0)) := by
  set d := round2 (target - observed) with hd
  simp only [injectedTransaction, updateAccountBalance, ← hd]
  by_cases hle : |d| ≤ threshold
  · simp [hle]
  · have hd0 : d ≠ 0 := by
      intro h0
      rw [h0] at hle
      simp only [abs_zero] at hle
      exact hle hth
    simp only [hle, if_false, iff_false]
    refine ⟨by simp [hd0, hle], ?_⟩
    intro _
    rcases lt_or_gt_of_ne hd0 with hneg | hpos
    · have h1 : ¬ 0 < d := not_lt.mpr hneg.le
      simp [hd0, h1, hneg]
    · have h1 : ¬ d < 0 := not_lt.mpr hpos.le
      simp [hd0, h1, hpos]

/-- Witness for C1 at the scenario of the claim: observed 1234.56,
target 1240.00, threshold 10 injects nothing (delta 5.44 within the
dead band). -/
theorem updateAccountBalance_decision_witness :
    injectedTransaction 1234.56 1240 10 = none := by
  have h5 : round2 ((1240 : ℚ) - 1234.56) = 5.44 := by norm_num [round2, pyRound]
  have habs : |round2 ((1240 : ℚ) - 1234.56)| ≤ 10 := by
    rw [h5, abs_of_pos] <;> norm_num
  exact (updateAccountBalance_decision 1234.56 1240 10 (by norm_num)).1.mpr habs

/-- C1 counterexample: at observed 0, target 0 and threshold −1 the
threshold check is passed (|delta| = 0 > −1) yet no transaction is
injected, because `add_transaction` returns immediately on the zero
amount — refuting the claimed equivalence for arbitrary thresholds. -/
theorem updateAccountBalance_negThreshold_cex :
    injectedTransaction 0 0 (-1) = none ∧ ¬ |round2 ((0 : ℚ) - 0)| ≤ (-1 : ℚ) := by
  have h : round2 ((0 : ℚ) - 0) = 0 := by norm_num [round2, pyRound]
  constructor
  · simp only [injectedTransaction, updateAccountBalance]
    rw [h]
    norm_num
  · rw [h]
    norm_num

theorem findIdxElem_shift (accountName : String) :
    ∀ (l : List BasicElement) (k i : ℕ) (el : BasicElement),
      l.get? i = some el → el.text = accountName →
      (∀ j, j < i → ∀ e, l.get? j = some e → e.text ≠ accountName) →
      findIdxElem accountName k l = some (k + i, el) := by
  intro l
  induction l with
  | nil => intro k i el h0; simp at h0
  | cons e rest ih =>
    intro k i el h0 h1 h2
    cases i with
    | zero =>
      simp only [List.get?_cons_zero, Option.some.injEq] at h0
      subst h0
      simp [findIdxElem, h1]
    | succ i' =>
      have hne : e.text ≠ accountName := h2 0 (Nat.succ_pos i') e rfl
      simp only [List.get?_cons_succ] at h0
      have h2' : ∀ j, j < i' → ∀ e', rest.get? j = some e' → e'.text ≠ accountName := by
        intro j hj e' hge
        exact h2 (j + 1) (Nat.succ_lt_succ hj) e' (by simpa using hge)
      have := ih (k + 1) i' el h0 h1 h2'
      rw [findIdxElem, if_neg hne, this]
      congr 2
      omega

/-- Evaluation shape of `get_account_current_app_balance` once the
first matching index, the following element and the parse result are
known. -/
theorem getBalanceEval (elements : List BasicElement) (accountName : String) (i : ℕ)
    (el nextEl : BasicElement) (q : ℚ)
    (h1 : findIdxElem accountName 0 elements = some (i, el))
    (h2 : elements.get? (i + 1) = some nextEl)
    (h3 : pyFloat? (balanceText nextEl.text) = some q) :
    getAccountCurrentAppBalance elements accountName = BalanceResult.ok q el := by
  unfold getAccountCurrentAppBalance
  rw [h1]
  simp only
  rw [h2]
  simp only
  rw [h3]

/-- C2 (amended): for an account label first occurring at index `i` of
the normalized text-element sequence and followed by one more element,
balance extraction reads the label of that immediately following
element, drops its trailing two characters, removes every `.`,
replaces `,` with `.` and parses the result as a decimal (the parsed
amount when parsing succeeds, a `ValueError` otherwise).  In the
specification's scenario the label `"1.234,56€"` yields 1234.5, not
1234.56, because the two dropped trailing characters are `6` and `€`;
the conventional label `"1.234,56 €"` yields 1234.56. -/
theorem balanceExtraction_nextLabel (elements : List BasicElement) (accountName : String)
    (i : ℕ) (el nextEl : BasicElement)
    (h0 : elements.get? i = some el) (h1 : el.text = accountName)
    (h2 : ∀ j, j < i → ∀ e, elements.get? j = some e → e.text ≠ accountName)
    (h3 : elements.get? (i + 1) = some nextEl) :
    getAccountCurrentAppBalance elements accountName =
      (match pyFloat? (balanceText nextEl.text) with
        | none => BalanceResult.valueError
        | some q => BalanceResult.ok q el) := by
  have hfind : findIdxElem accountName 0 elements = some (i, el) := by
    have := findIdxElem_shift accountName elements 0 i el h0 h1 h2
    simpa using this
  unfold getAccountCurrentAppBalance
  rw [hfind]
  simp only
  rw [h3]

/-- Witness for C2 with the conventional two-character suffix of a
space and the euro sign: the label `"1.234,56 €"` immediately following
`"Main Account"` yields the extracted balance 1234.56. -/
theorem balanceExtraction_nextLabel_witness :
    getAccountCurrentAppBalance mainAccountEls "Main Account" =
      BalanceResult.ok (1234.56 : ℚ) ⟨"Main Account", 0, 0, 400, 50, some 0⟩ := by
  have h := balanceExtraction_nextLabel mainAccountEls "Main Account" 0
    ⟨"Main Account", 0, 0, 400, 50, some 0⟩ ⟨"1.234,56 €", 0, 50, 400, 100, some 1⟩
    rfl rfl (fun j hj => absurd hj (Nat.not_lt_zero j)) rfl
  rw [h]
  have hp : pyFloatParts (balanceText "1.234,56 €").data = some (false, 1234, 56, 2) := by
    decide
  simp [pyFloat?, hp]
  norm_num

/-- C2 counterexample: on the claim's own scenario — the label
`"1.234,56€"` immediately following `"Main Account"` — extraction
yields 1234.5, not the claimed 1234.56: the trailing-two-character drop
removes the final fraction digit together with the euro sign. -/
theorem balanceExtraction_scenario_cex :
    getAccountCurrentAppBalance mainAccountElsBare "Main Account" =
      BalanceResult.ok (1234.5 : ℚ) ⟨"Main Account", 0, 0, 400, 50, some 0⟩ ∧
    getAccountCurrentAppBalance mainAccountElsBare "Main Account" ≠
      BalanceResult.ok (1234.56 : ℚ) ⟨"Main Account", 0, 0, 400, 50, some 0⟩ := by
  have he : getAccountCurrentAppBalance mainAccountElsBare "Main Account" =
      BalanceResult.ok (1234.5 : ℚ) ⟨"Main Account", 0, 0, 400, 50, some 0⟩ := by
    apply getBalanceEval mainAccountElsBare "Main Account" 0 _
      ⟨"1.234,56€", 0, 50, 400, 100, some 1⟩
    · decide
    · rfl
    · have hp : pyFloatParts (balanceText "1.234,56€").data = some (false, 1234, 5, 1) := by
        decide
      simp [pyFloat?, hp]
      norm_num
  refine ⟨he, ?_⟩
  rw [he]
  intro hc
  rw [BalanceResult.ok.injEq] at hc
  exact absurd hc.1 (by norm_num)

/-- C3: a full bank-update request is granted iff the cooldown has
elapsed since `last_bank_update`; granting stores the grant time in
`last_bank_update`, and a denied call returns the `False` sentinel with
the stored timestamp unchanged and no device actions performed. -/
theorem requestBankUpdate_gate (last now : ℚ) (block : Bool) :
    ((requestBankUpdate last now block).1 = true ↔ bankUpdateCooldown ≤ now - last) ∧
    ((requestBankUpdate last now block).1 = true →
      (requestBankUpdate last now block).2.1 = now) ∧
    ((requestBankUpdate last now block).1 = false →
      requestBankUpdate last now block = (false, last, [])) := by
  unfold requestBankUpdate
  by_cases hc : now - last < bankUpdateCooldown
  · simp [hc, not_le.mpr hc]
  · cases block <;> simp [hc, not_lt.mp hc]

/-- Witness for C3: with the cooldown elapsed the request is granted. -/
theorem requestBankUpdate_gate_witness :
    (requestBankUpdate 0 108000 false).1 = true :=
  (requestBankUpdate_gate 0 108000 false).1.mpr (by norm_num [bankUpdateCooldown])

/-- C9: a granted non-blocking `request_bank_update` returns `True` to
the caller immediately and performs no device actions itself, and the
spawned blocking call — running after `last_bank_update` was already
set to the grant time — is denied by its own cooldown check and
performs no device actions either: the full update sequence (navigate
to overview, pull-to-refresh swipe, settle wait) is never executed. -/
theorem requestBankUpdate_asyncSkipsUpdate (last now nowT : ℚ)
    (hgrant : bankUpdateCooldown ≤ now - last)
    (hsoon : nowT - now < bankUpdateCooldown) :
    (requestBankUpdate last now false).1 = true ∧
    (requestBankUpdate last now false).2.2 = [] ∧
    requestBankUpdate (requestBankUpdate last now false).2.1 nowT true =
      (false, now, []) := by
  have houter : requestBankUpdate last now false = (true, now, []) := by
    unfold requestBankUpdate
    simp [not_lt.mpr hgrant]
  refine ⟨by rw [houter], by rw [houter], ?_⟩
  rw [houter]
  unfold requestBankUpdate
  simp [hsoon]

/-- Witness for C9: with `last_bank_update = 0`, a non-blocking call at
time 108000 is granted, and the spawned blocking call at time 108001 is
denied and performs nothing. -/
theorem requestBankUpdate_asyncSkipsUpdate_witness :
    requestBankUpdate (requestBankUpdate 0 108000 false).2.1 108001 true =
      (false, 108000, []) :=
  (requestBankUpdate_asyncSkipsUpdate 0 108000 108001
    (by norm_num [bankUpdateCooldown]) (by norm_num [bankUpdateCooldown])).2.2

theorem addTextEl_inv (acc acc' : List BasicElement) (node : RawNode) (label : String)
    (h : addTextEl acc node label = some acc')
    (hP : (∀ e ∈ acc, e.text ≠ "") ∧ acc.Nodup) :
    (∀ e ∈ acc', e.text ≠ "") ∧ acc'.Nodup := by
  unfold addTextEl at h
  split at h
  · rw [Option.some.injEq] at h
    rwa [← h]
  · next hlab =>
    cases hb : parseBounds node.bounds with
    | none => rw [hb] at h; exact absurd h (by simp)
    | some t =>
      obtain ⟨x1, y1, x2, y2⟩ := t
      rw [hb] at h
      simp only [Option.some.injEq] at h
      by_cases hmem : (⟨label, x1, y1, x2, y2, some node.id⟩ : BasicElement) ∈ acc
      · rw [if_pos hmem] at h
        rwa [← h]
      · rw [if_neg hmem] at h
        rw [← h]
        constructor
        · intro e he
          rcases List.mem_append.mp he with h1 | h1
          · exact hP.1 e h1
          · rw [List.mem_singleton.mp h1]
            exact hlab
        · rw [List.nodup_append]
          exact ⟨hP.2, List.nodup_singleton _, by
            intro a ha hb2
            rw [List.mem_singleton.mp hb2] at ha
            exact hmem ha⟩

theorem textPass_inv (acc acc' : List BasicElement) (node : RawNode)
    (h : textPass acc node = some acc')
    (hP : (∀ e ∈ acc, e.text ≠ "") ∧ acc.Nodup) :
    (∀ e ∈ acc', e.text ≠ "") ∧ acc'.Nodup := by
  unfold textPass at h
  cases hn : node.text with
  | none => rw [hn] at h; rw [Option.some.injEq] at h; rwa [← h]
  | some t => rw [hn] at h; exact addTextEl_inv acc acc' node t h hP

theorem descPass_inv (acc acc' : List BasicElement) (node : RawNode)
    (h : descPass acc node = some acc')
    (hP : (∀ e ∈ acc, e.text ≠ "") ∧ acc.Nodup) :
    (∀ e ∈ acc', e.text ≠ "") ∧ acc'.Nodup := by
  unfold descPass at h
  cases hn : node.contentDesc with
  | none => rw [hn] at h; rw [Option.some.injEq] at h; rwa [← h]
  | some t => rw [hn] at h; exact addTextEl_inv acc acc' node t h hP

theorem foldlM_pass_inv (f : List BasicElement → RawNode → Option (List BasicElement))
    (hf : ∀ acc acc' n, f acc n = some acc' →
      (∀ e ∈ acc, e.text ≠ "") ∧ acc.Nodup → (∀ e ∈ acc', e.text ≠ "") ∧ acc'.Nodup) :
    ∀ (l : List RawNode) (acc acc' : List BasicElement),
      List.foldlM f acc l = some acc' →
      (∀ e ∈ acc, e.text ≠ "") ∧ acc.Nodup → (∀ e ∈ acc', e.text ≠ "") ∧ acc'.Nodup := by
  intro l
  induction l with
  | nil =>
    intro acc acc' h hP
    simp only [List.foldlM_nil] at h
    have h' : acc = acc' := by simpa using h
    rwa [← h']
  | cons n rest ih =>
    intro acc acc' h hP
    rw [List.foldlM_cons] at h
    cases hfa : f acc n with
    | none => rw [hfa] at h; exact absurd h (by simp)
    | some a =>
      rw [hfa] at h
      simp only [Option.bind_eq_bind, Option.some_bind] at h
      exact ih a acc' h (hf acc a n hfa hP)

/-- C4 (amended): normalization drops every node whose label is empty,
and the de-duplication of `e not in text_els` guarantees no element —
compared by label, bounds AND raw-node reference, the equality the
generated dataclass actually uses — appears twice; the same raw node
reachable via both `text` and `content-desc` therefore appears once,
but two distinct raw nodes with equal label and bounds both appear. -/
theorem getListOfElements_labelsNodup (nodes : List RawNode) (els : List BasicElement)
    (h : getListOfElements nodes = some els) :
    (∀ e ∈ els, e.text ≠ "") ∧ els.Nodup := by
  unfold getListOfElements at h
  cases hm : nodes.foldlM textPass [] with
  | none => rw [hm] at h; exact absurd h (by simp)
  | some a =>
    rw [hm] at h
    simp only [Option.bind_eq_bind, Option.some_bind] at h
    have hbase : (∀ e ∈ ([] : List BasicElement), e.text ≠ "") ∧
        ([] : List BasicElement).Nodup := by simp
    have ha := foldlM_pass_inv textPass textPass_inv nodes [] a hm hbase
    exact foldlM_pass_inv descPass descPass_inv nodes a els h ha

/-- Witness for C4: a node carrying the same label in both `text` and
`content-desc` appears once, and the empty-labelled node is dropped. -/
theorem getListOfElements_labelsNodup_witness :
    (∀ e ∈ [(⟨"B", 1, 2, 3, 4, some 0⟩ : BasicElement)], e.text ≠ "") ∧
    ([(⟨"B", 1, 2, 3, 4, some 0⟩ : BasicElement)]).Nodup :=
  getListOfElements_labelsNodup bothAttrNodes [⟨"B", 1, 2, 3, 4, some 0⟩] (by decide)

/-- C4 counterexample: two distinct raw nodes with identical label and
identical bounds both survive normalization — the dataclass equality
also compares the raw-node back-reference (object identity in Python),
so equality does not depend on label and bounds only, and the
normalized sequence contains two elements with identical label and
bounds. -/
theorem getListOfElements_duplicate_cex :
    getListOfElements dupLabelNodes =
      some [⟨"A", 0, 0, 10, 10, some 0⟩, ⟨"A", 0, 0, 10, 10, some 1⟩] ∧
    ¬ (([⟨"A", 0, 0, 10, 10, some 0⟩, ⟨"A", 0, 0, 10, 10, some 1⟩] : List BasicElement).map
        (fun e => (e.text, e.x1, e.y1, e.x2, e.y2))).Nodup := by
  constructor
  · decide
  · decide

end Finanzguru
